import Mathlib

/-!
Shallow embedding of the puppet-summary store layer (db.go) and the
report-submission handlers (cmd_serve.go).

The relational store is modelled as lists of rows, one list per table
(`reports`, `hosts`, `history`).  Each SQL statement of the source is
translated to the corresponding list operation; the Go function that
issues the statements becomes a Lean function threading the table state.
Time values (unix epochs) are `Int`, counters are `Nat`.  The `history`
date column stores the calendar-day key; the source keeps it as the
fixed-width text strftime of the epoch, which orders and compares
exactly like the day number `epoch / 86400`, so the key is modelled as
that `Int`.
-/

namespace PuppetSummary

/-- Parsed report value produced by ParsePuppetReport (the parser itself
is outside the store layer; its output fields are those read by addDB). -/
structure PuppetReport where
  fqdn : String
  state : String
  hash : String
  runtime : Nat
  failed : Nat
  changed : Nat
  total : Nat
  skipped : Nat
  role : String
  branch : String
  buildTime : Nat
deriving DecidableEq, Repr

/-- Row of the `reports` table (id, host_id, fqdn, state, yaml_file,
runtime, executed_at, role, branch, build_time, total, skipped, failed,
changed). -/
structure ReportRow where
  rid : Nat
  host_id : Nat
  fqdn : String
  state : String
  yaml_file : String
  runtime : Nat
  executed_at : Int
  role : String
  branch : String
  build_time : Nat
  total : Nat
  skipped : Nat
  failed : Nat
  changed : Nat
deriving DecidableEq, Repr

/-- Row of the `hosts` table (host_id, fqdn, role, branch, build_time,
state, last_seen, runtime, pinned); fqdn carries a UNIQUE constraint. -/
structure HostRow where
  host_id : Nat
  fqdn : String
  role : String
  branch : String
  build_time : Nat
  state : String
  last_seen : Int
  runtime : Nat
  pinned : Nat
deriving DecidableEq, Repr

/-- Row of the `history` table (id, date, failed, changed, unchanged);
date carries a UNIQUE constraint.  `hdate` is the calendar-day key. -/
structure HistoryRow where
  hid : Nat
  hdate : Int
  failed : Nat
  changed : Nat
  unchanged : Nat
deriving DecidableEq, Repr

/-- The whole relational store: the three tables of SetupDB. -/
structure DBState where
  reports : List ReportRow
  hosts : List HostRow
  history : List HistoryRow
deriving DecidableEq, Repr

/-- Calendar-day key of an epoch: what strftime of
DATE(?, 'unixepoch') denotes, as the (floor) day number. -/
def dateKey (e : Int) : Int := Int.fdiv e 86400

/-- Next AUTOINCREMENT id for the `reports` table. -/
def freshReportId (reports : List ReportRow) : Nat :=
  (reports.map ReportRow.rid).foldr max 0 + 1

/-- Next AUTOINCREMENT id for the `hosts` table. -/
def freshHostId (hosts : List HostRow) : Nat :=
  (hosts.map HostRow.host_id).foldr max 0 + 1

/-- Next AUTOINCREMENT id for the `history` table. -/
def freshHistoryId (hist : List HistoryRow) : Nat :=
  (hist.map HistoryRow.hid).foldr max 0 + 1

/-- getHostId: SELECT host_id FROM hosts WHERE fqdn = ?; the Go code
returns 0 for sql.ErrNoRows. -/
def getHostId (fqdn : String) (hosts : List HostRow) : Nat :=
  match hosts.find? (fun h => h.fqdn = fqdn) with
  | some h => h.host_id
  | none => 0

/-- createHost: INSERT INTO hosts(fqdn, state, last_seen, runtime,
pinned, role, branch, build_time) VALUES (?, '', 0, 0, 0, '', '', 0),
which fails the UNIQUE(fqdn) constraint when a row with that fqdn
already exists, then re-reads the id with getHostId. -/
def createHost (fqdn : String) (hosts : List HostRow) :
    Except String (Nat × List HostRow) :=
  if hosts.any (fun h => h.fqdn = fqdn) then
    .error "UNIQUE constraint failed: hosts.fqdn"
  else
    let hosts' := hosts ++ [⟨freshHostId hosts, fqdn, "", "", 0, "", 0, 0, 0⟩]
    .ok (getHostId fqdn hosts', hosts')

/-- INSERT INTO reports(fqdn, host_id, state, yaml_file, executed_at,
runtime, failed, changed, total, skipped, role, branch, build_time)
issued inside the transaction of addDB. -/
def insertReport (data : PuppetReport) (path : String) (host_id : Nat)
    (at_ : Int) (reports : List ReportRow) : List ReportRow :=
  reports ++
    [⟨freshReportId reports, host_id, data.fqdn, data.state, path,
      data.runtime, at_, data.role, data.branch, data.buildTime,
      data.total, data.skipped, data.failed, data.changed⟩]

/-- Effect on one host row of the SET clause of the snapshot UPDATE:
last_seen, state, runtime, role, branch and build_time are overwritten,
host_id, fqdn and pinned are not. -/
def applySnapshot (data : PuppetReport) (at_ : Int) (h : HostRow) : HostRow :=
  { h with last_seen := at_, state := data.state,
           runtime := data.runtime, role := data.role,
           branch := data.branch, build_time := data.buildTime }

/-- UPDATE hosts SET last_seen = ?, state = ?, runtime = ?, role = ?,
branch = ?, build_time = ? WHERE host_id = ?, issued inside the
transaction of addDB. -/
def updateHost (data : PuppetReport) (at_ : Int) (host_id : Nat)
    (hosts : List HostRow) : List HostRow :=
  hosts.map (fun h =>
    if h.host_id = host_id then applySnapshot data at_ h else h)

/-- INSERT INTO history(date, failed, changed, unchanged)
VALUES (?, 0, 0, 0), executed by updateHistory only when the lookup of
the date key found no row. -/
def insertHistoryIfAbsent (at_ : Int) (hist : List HistoryRow) :
    List HistoryRow :=
  if (hist.find? (fun b => b.hdate = dateKey at_)).isSome then hist
  else hist ++ [⟨freshHistoryId hist, dateKey at_, 0, 0, 0⟩]

/-- Per-state deltas (failed, changed, unchanged) computed by the
switch in updateHistory; states outside the three known ones leave all
three at 0. -/
def stateDeltas (state : String) : Nat × Nat × Nat :=
  if state = "failed" then (1, 0, 0)
  else if state = "changed" then (0, 1, 0)
  else if state = "unchanged" then (0, 0, 1)
  else (0, 0, 0)

/-- Total weight a single updateHistory call adds across the three
counters: 1 for a recognized state, 0 otherwise. -/
def stateWeight (state : String) : Nat :=
  (stateDeltas state).1 + (stateDeltas state).2.1 + (stateDeltas state).2.2

/-- Effect on one bucket of UPDATE history SET failed = failed + ?,
changed = changed + ?, unchanged = unchanged + ? with the deltas of the
given state. -/
def bump (state : String) (b : HistoryRow) : HistoryRow :=
  { b with failed := b.failed + (stateDeltas state).1,
           changed := b.changed + (stateDeltas state).2.1,
           unchanged := b.unchanged + (stateDeltas state).2.2 }

/-- UPDATE history SET failed = failed + ?, changed = changed + ?,
unchanged = unchanged + ? WHERE id = ?, where the id was re-read by
date-key lookup (0 when even the re-lookup found nothing). -/
def bumpHistory (at_ : Int) (state : String) (hist : List HistoryRow) :
    List HistoryRow :=
  let i := match hist.find? (fun b => b.hdate = dateKey at_) with
           | some b => b.hid
           | none => 0
  hist.map (fun b => if b.hid = i then bump state b else b)

/-- updateHistory: look up the bucket for the calendar day of the
epoch, insert a zero bucket when absent, then add the per-state deltas
to the (re-)looked-up row. -/
def updateHistory (at_ : Int) (state : String) (hist : List HistoryRow) :
    List HistoryRow :=
  bumpHistory at_ state (insertHistoryIfAbsent at_ hist)

/-- addDB with the two reads of the hosts table made explicit: the
lookup (getHostId) reads `hostsAtLookup` while the INSERT of createHost
races against `hostsAtCreate`.  The Go function reads the table in two
separate statements, so a concurrent creator can change it in between;
`addDB` below is the interference-free instance.  The report insert and
the host update happen inside one transaction; updateHistory runs after
the commit. -/
def addDBRace (data : PuppetReport) (path : String) (at_ : Int)
    (hostsAtLookup hostsAtCreate : List HostRow)
    (reports : List ReportRow) (history : List HistoryRow) :
    Except String DBState :=
  let host_id := getHostId data.fqdn hostsAtLookup
  if host_id = 0 then
    match createHost data.fqdn hostsAtCreate with
    | .error e => .error e
    | .ok (i, hosts') =>
        .ok ⟨insertReport data path i at_ reports,
             updateHost data at_ i hosts',
             updateHistory at_ data.state history⟩
  else
    .ok ⟨insertReport data path host_id at_ reports,
         updateHost data at_ host_id hostsAtCreate,
         updateHistory at_ data.state history⟩

/-- addDB: look up the host id, create the host row when absent, then
insert the report row and update the host snapshot in one transaction,
and finally increment the history bucket. -/
def addDB (data : PuppetReport) (path : String) (at_ : Int)
    (s : DBState) : Except String DBState :=
  addDBRace data path at_ s.hosts s.hosts s.reports s.history

/-- Store states observable by a concurrent reader while addDB runs:
the initial state; after the createHost INSERT (its own statement, when
the host was absent); after the transaction commit, which publishes the
report insert and the host update together; after the history bucket
INSERT; and after the history counter UPDATE.  When createHost fails
nothing has been mutated. -/
def addDBTrace (data : PuppetReport) (path : String) (at_ : Int)
    (s : DBState) : List DBState :=
  let host_id := getHostId data.fqdn s.hosts
  if host_id = 0 then
    match createHost data.fqdn s.hosts with
    | .error _ => [s]
    | .ok (i, hosts') =>
        [s,
         { s with hosts := hosts' },
         { s with hosts := updateHost data at_ i hosts',
                  reports := insertReport data path i at_ s.reports },
         { s with hosts := updateHost data at_ i hosts',
                  reports := insertReport data path i at_ s.reports,
                  history := insertHistoryIfAbsent at_ s.history },
         { s with hosts := updateHost data at_ i hosts',
                  reports := insertReport data path i at_ s.reports,
                  history := updateHistory at_ data.state s.history }]
  else
    [s,
     { s with reports := insertReport data path host_id at_ s.reports,
              hosts := updateHost data at_ host_id s.hosts },
     { s with reports := insertReport data path host_id at_ s.reports,
              hosts := updateHost data at_ host_id s.hosts,
              history := insertHistoryIfAbsent at_ s.history },
     { s with reports := insertReport data path host_id at_ s.reports,
              hosts := updateHost data at_ host_id s.hosts,
              history := updateHistory at_ data.state s.history }]

/-- updateOrphans: UPDATE hosts SET state = 'orphaned' WHERE
last_seen < now - threshold, with the hard-coded threshold
3.5 * 24 * 60 * 60 = 302400 seconds. -/
def updateOrphans (now : Int) (hosts : List HostRow) : List HostRow :=
  hosts.map (fun h =>
    if h.last_seen < now - 302400 then { h with state := "orphaned" }
    else h)

/-- purgeOrphans: DELETE FROM hosts WHERE last_seen < now - days*86400
AND pinned = 0. -/
def purgeOrphans (days : Nat) (now : Int) (hosts : List HostRow) :
    List HostRow :=
  hosts.filter (fun h =>
    !(decide (h.last_seen < now - (days : Int) * 86400) &&
      decide (h.pinned = 0)))

/-- purgeOrphans as a whole-store operation: the Go function issues the
single hosts DELETE and touches no other table. -/
def purgeOrphansDB (days : Nat) (now : Int) (s : DBState) : DBState :=
  { s with hosts := purgeOrphans days now s.hosts }

/-- pruneHistory: count the buckets; when more than the hard-coded 14
exist, SELECT id FROM history ORDER BY date LIMIT (count - 14) and
DELETE FROM history WHERE id IN (those ids). -/
def pruneHistory (hist : List HistoryRow) : List HistoryRow :=
  if hist.length ≤ 14 then hist
  else
    let purge := hist.length - 14
    let sorted := hist.mergeSort (fun a b => decide (a.hdate ≤ b.hdate))
    let ids := (sorted.take purge).map HistoryRow.hid
    hist.filter (fun b => !(decide (b.hid ∈ ids)))

/-- getReports: SELECT ... FROM reports WHERE fqdn = ? ORDER BY
executed_at DESC LIMIT 50, returned as an error when the result set is
empty. -/
def getReports (fqdn : String) (reports : List ReportRow) :
    Except String (List ReportRow) :=
  let rows :=
    ((reports.filter (fun r => r.fqdn = fqdn)).mergeSort
      (fun a b => decide (b.executed_at ≤ a.executed_at))).take 50
  if rows.length < 1 then .error ("Failed to find reports for " ++ fqdn)
  else .ok rows

/-- On-disk artifact path of a report relative to the report root:
filepath.Join of the fqdn directory and the content hash. -/
def artifactPath (r : PuppetReport) : String := r.fqdn ++ "/" ++ r.hash

/-- Web-facing state: the set of committed artifact paths on disk plus
the relational store. -/
structure WebState where
  artifacts : List String
  db : DBState
deriving DecidableEq, Repr

/-- Responses of the synchronous upload handler that the claims
distinguish: the duplicate no-op text, the fresh-ingestion host JSON,
and the parse-failure error. -/
inductive SubmitResult where
  | duplicate
  | ok (fqdn : String)
  | parseError
deriving DecidableEq, Repr

/-- ReportSubmissionHandler: parse the body, no-op (with the distinct
duplicate response) when the artifact path already exists, otherwise
write the artifact and record the summary with addDB, whose error the
handler ignores. -/
def ReportSubmissionHandler (parse : String → Except String PuppetReport)
    (content : String) (at_ : Int) (w : WebState) :
    WebState × SubmitResult :=
  match parse content with
  | .error _ => (w, .parseError)
  | .ok report =>
    let path := artifactPath report
    if path ∈ w.artifacts then (w, .duplicate)
    else
      let db' := match addDB report path at_ w.db with
                 | .ok s => s
                 | .error _ => w.db
      (⟨path :: w.artifacts, db'⟩, .ok report.fqdn)

/-- Result of one async-worker run: the staging directory afterwards,
the web state afterwards, and whether the staging file was removed. -/
structure SaveOutcome where
  tmp : List (String × String)
  web : WebState
  removedTemp : Bool
deriving DecidableEq, Repr

/-- AsyncReportSubmissionSaver: read the staged file, parse it, create
the host directory, skip duplicates, write the artifact, record via
addDB (error ignored) and only then delete the staging file; every
earlier failure returns without touching the staging file.  `dirOk` and
`writeOk` stand for the MkdirAll and WriteFile outcomes. -/
def AsyncReportSubmissionSaver (parse : String → Except String PuppetReport)
    (uuid : String) (at_ : Int) (dirOk writeOk : Bool)
    (tmp : List (String × String)) (w : WebState) : SaveOutcome :=
  match tmp.find? (fun p => p.1 = uuid) with
  | none => ⟨tmp, w, false⟩
  | some p =>
    match parse p.2 with
    | .error _ => ⟨tmp, w, false⟩
    | .ok report =>
      if dirOk then
        let path := artifactPath report
        if path ∈ w.artifacts then ⟨tmp, w, false⟩
        else if writeOk then
          let db' := match addDB report path at_ w.db with
                     | .ok s => s
                     | .error _ => w.db
          ⟨tmp.filter (fun q => !(q.1 = uuid : Bool)),
           ⟨path :: w.artifacts, db'⟩, true⟩
        else ⟨tmp, w, false⟩
      else ⟨tmp, w, false⟩

/-- Grand total of the three counters over all history buckets, the
quantity each ingestion is meant to raise by exactly one. -/
def histTotal (hist : List HistoryRow) : Nat :=
  (hist.map (fun b => b.failed + b.changed + b.unchanged)).sum

/-- C4 (counterexample): purgeOrphans deletes a host whose state is
"changed" (not "orphaned") as soon as it is stale and unpinned, and
leaves the host's report row in place — so the deletion is neither
restricted to orphaned hosts nor cascaded to the Report rows. -/
theorem purgeOrphans_not_state_restricted_cex :
    (⟨1, "web01", "", "", 0, "changed", 0, 0, 0⟩ : HostRow) ∈
      (⟨[⟨1, 1, "web01", "changed", "web01/h1", 0, 0, "", "", 0, 0, 0, 0, 0⟩],
        [⟨1, "web01", "", "", 0, "changed", 0, 0, 0⟩], []⟩ : DBState).hosts ∧
    (⟨1, "web01", "", "", 0, "changed", 0, 0, 0⟩ : HostRow).state ≠ "orphaned" ∧
    (⟨1, "web01", "", "", 0, "changed", 0, 0, 0⟩ : HostRow) ∉
      (purgeOrphansDB 30 10000000
        ⟨[⟨1, 1, "web01", "changed", "web01/h1", 0, 0, "", "", 0, 0, 0, 0, 0⟩],
         [⟨1, "web01", "", "", 0, "changed", 0, 0, 0⟩], []⟩).hosts ∧
    (⟨1, 1, "web01", "changed", "web01/h1", 0, 0, "", "", 0, 0, 0, 0, 0⟩ : ReportRow) ∈
      (purgeOrphansDB 30 10000000
        ⟨[⟨1, 1, "web01", "changed", "web01/h1", 0, 0, "", "", 0, 0, 0, 0, 0⟩],
         [⟨1, "web01", "", "", 0, "changed", 0, 0, 0⟩], []⟩).reports := by
  decide

/-- C4 (amended): purgeOrphans deletes exactly the hosts whose
last_seen is older than now - days*86400 and whose pinned flag is 0,
regardless of their state, and leaves the reports and history tables
untouched (the report-row cleanup for orphaned hosts is a separate
sweep). -/
theorem purgeOrphans_deletes_stale_unpinned (days : Nat) (now : Int)
    (s : DBState) :
    (purgeOrphansDB days now s).reports = s.reports ∧
    (purgeOrphansDB days now s).history = s.history ∧
    ∀ h : HostRow, h ∈ (purgeOrphansDB days now s).hosts ↔
      h ∈ s.hosts ∧ ¬(h.last_seen < now - (days : Int) * 86400 ∧ h.pinned = 0) := by
  refine ⟨rfl, rfl, fun h => ?_⟩
  simp only [purgeOrphansDB, purgeOrphans, List.mem_filter, Bool.not_eq_true',
    Bool.and_eq_false_iff, decide_eq_false_iff_not, not_lt, not_and]
  constructor
  · rintro ⟨hm, hc⟩
    refine ⟨hm, fun hlt hp => ?_⟩
    rcases hc with hc | hc
    · exact absurd hlt (not_lt.mpr hc)
    · exact hc hp
  · rintro ⟨hm, hc⟩
    refine ⟨hm, ?_⟩
    by_cases hlt : h.last_seen < now - (days : Int) * 86400
    · exact Or.inr (hc hlt)
    · exact Or.inl (not_lt.mp hlt)

/-- C4 witness: the amended characterization applied at a concrete
store holding one stale unpinned host and one report row. -/
theorem purgeOrphans_deletes_stale_unpinned_witness :
    (purgeOrphansDB 30 10000000
      ⟨[⟨1, 1, "web01", "changed", "web01/h1", 0, 0, "", "", 0, 0, 0, 0, 0⟩],
       [⟨1, "web01", "", "", 0, "changed", 0, 0, 0⟩], []⟩).reports =
      [⟨1, 1, "web01", "changed", "web01/h1", 0, 0, "", "", 0, 0, 0, 0, 0⟩] ∧
    (purgeOrphansDB 30 10000000
      ⟨[⟨1, 1, "web01", "changed", "web01/h1", 0, 0, "", "", 0, 0, 0, 0, 0⟩],
       [⟨1, "web01", "", "", 0, "changed", 0, 0, 0⟩], []⟩).history = [] ∧
    ∀ h : HostRow, h ∈ (purgeOrphansDB 30 10000000
      ⟨[⟨1, 1, "web01", "changed", "web01/h1", 0, 0, "", "", 0, 0, 0, 0, 0⟩],
       [⟨1, "web01", "", "", 0, "changed", 0, 0, 0⟩], []⟩).hosts ↔
      h ∈ [⟨1, "web01", "", "", 0, "changed", 0, 0, 0⟩] ∧
      ¬(h.last_seen < 10000000 - (30 : Nat) * 86400 ∧ h.pinned = 0) :=
  purgeOrphans_deletes_stale_unpinned 30 10000000
    ⟨[⟨1, 1, "web01", "changed", "web01/h1", 0, 0, "", "", 0, 0, 0, 0, 0⟩],
     [⟨1, "web01", "", "", 0, "changed", 0, 0, 0⟩], []⟩

/-- C6: every invocation of purgeOrphans preserves the pinned hosts:
restricting the hosts table to the rows whose pin flag is set yields
the same list before and after the purge, whatever the threshold, the
current time, the hosts' states or their staleness. -/
theorem purgeOrphans_preserves_pinned (days : Nat) (now : Int)
    (s : DBState) :
    ((purgeOrphansDB days now s).hosts.filter (fun h => decide (h.pinned ≠ 0))) =
      s.hosts.filter (fun h => decide (h.pinned ≠ 0)) := by
  simp only [purgeOrphansDB, purgeOrphans, List.filter_filter]
  apply List.filter_congr
  intro x _
  by_cases hp : x.pinned = 0 <;> simp [hp]

/-- C6 witness: the pin-preservation equation at a concrete table with
one stale pinned host and one stale unpinned host. -/
theorem purgeOrphans_preserves_pinned_witness :
    ((purgeOrphansDB 30 10000000
      ⟨[], [⟨1, "web01", "", "", 0, "orphaned", 0, 0, 1⟩,
            ⟨2, "web02", "", "", 0, "orphaned", 0, 0, 0⟩], []⟩).hosts.filter
        (fun h => decide (h.pinned ≠ 0))) =
      ([⟨1, "web01", "", "", 0, "orphaned", 0, 0, 1⟩,
        ⟨2, "web02", "", "", 0, "orphaned", 0, 0, 0⟩] : List HostRow).filter
        (fun h => decide (h.pinned ≠ 0)) :=
  purgeOrphans_preserves_pinned 30 10000000
    ⟨[], [⟨1, "web01", "", "", 0, "orphaned", 0, 0, 1⟩,
          ⟨2, "web02", "", "", 0, "orphaned", 0, 0, 0⟩], []⟩

/-- C8: the orphan sweep transitions into state "orphaned" exactly the
hosts whose last_seen is strictly older than now minus the 302400
second threshold, changing no other field: position i of the table
afterwards holds a row with every non-state field equal to the old row,
whose state is "orphaned" when last_seen < now - 302400 and is the old
row unchanged otherwise; in particular last_seen = now - 302400 - 1 is
marked and last_seen = now - 302400 + 1 is untouched. -/
theorem updateOrphans_boundary (now : Int) (hosts : List HostRow)
    (i : Nat) (h : HostRow) (hi : hosts[i]? = some h) :
    ∃ h', (updateOrphans now hosts)[i]? = some h' ∧
      (h.last_seen < now - 302400 → h'.state = "orphaned") ∧
      (¬ h.last_seen < now - 302400 → h' = h) ∧
      h'.host_id = h.host_id ∧ h'.fqdn = h.fqdn ∧ h'.role = h.role ∧
      h'.branch = h.branch ∧ h'.build_time = h.build_time ∧
      h'.last_seen = h.last_seen ∧ h'.runtime = h.runtime ∧
      h'.pinned = h.pinned ∧
      (h.last_seen = now - 302400 - 1 → h'.state = "orphaned") ∧
      (h.last_seen = now - 302400 + 1 → h' = h) := by
  refine ⟨if h.last_seen < now - 302400 then { h with state := "orphaned" } else h,
    ?_, ?_⟩
  · simp [updateOrphans, List.getElem?_map, hi]
  · by_cases hlt : h.last_seen < now - 302400 <;>
      simp [hlt] <;> omega

/-- C8 witness: at now = 1000000, a host last seen at 697599
(= now - 302400 - 1) is marked orphaned with all other fields kept. -/
theorem updateOrphans_boundary_witness :
    ∃ h', (updateOrphans 1000000
        [⟨1, "web01", "r", "b", 7, "changed", 697599, 3, 1⟩])[0]? = some h' ∧
      ((⟨1, "web01", "r", "b", 7, "changed", 697599, 3, 1⟩ : HostRow).last_seen <
          1000000 - 302400 → h'.state = "orphaned") ∧
      (¬ (⟨1, "web01", "r", "b", 7, "changed", 697599, 3, 1⟩ : HostRow).last_seen <
          1000000 - 302400 → h' = ⟨1, "web01", "r", "b", 7, "changed", 697599, 3, 1⟩) ∧
      h'.host_id = 1 ∧ h'.fqdn = "web01" ∧ h'.role = "r" ∧
      h'.branch = "b" ∧ h'.build_time = 7 ∧
      h'.last_seen = 697599 ∧ h'.runtime = 3 ∧
      h'.pinned = 1 ∧
      ((697599 : Int) = 1000000 - 302400 - 1 → h'.state = "orphaned") ∧
      ((697599 : Int) = 1000000 - 302400 + 1 →
        h' = ⟨1, "web01", "r", "b", 7, "changed", 697599, 3, 1⟩) :=
  updateOrphans_boundary 1000000
    [⟨1, "web01", "r", "b", 7, "changed", 697599, 3, 1⟩] 0
    ⟨1, "web01", "r", "b", 7, "changed", 697599, 3, 1⟩ (by decide)

/-- C5 (counterexample): when the lookup saw an empty hosts table but a
racing creator inserted the fqdn before the create statement ran, addDB
returns the uniqueness-constraint error — the ingestion fails instead
of falling back to the update path. -/
theorem addDB_create_race_fails_cex :
    addDBRace ⟨"web01", "changed", "h1", 1, 0, 1, 1, 0, "r", "b", 0⟩
      "web01/h1" 1000 []
      [⟨1, "web01", "", "", 0, "", 0, 0, 0⟩] [] [] =
      .error "UNIQUE constraint failed: hosts.fqdn" := by
  rfl

/-- C5 (amended): when the host lookup finds no row but a row with the
fqdn exists by the time the create statement runs, addDB propagates the
uniqueness error from createHost and mutates nothing: there is no
fallback to the update path, so the racer's single host row is left
with its snapshot not updated by this ingestion. -/
theorem addDB_create_race_propagates_error (data : PuppetReport)
    (path : String) (at_ : Int) (hostsL hostsC : List HostRow)
    (reports : List ReportRow) (history : List HistoryRow)
    (hlook : getHostId data.fqdn hostsL = 0)
    (hrace : ∃ h ∈ hostsC, h.fqdn = data.fqdn) :
    addDBRace data path at_ hostsL hostsC reports history =
      .error "UNIQUE constraint failed: hosts.fqdn" := by
  obtain ⟨h, hm, hf⟩ := hrace
  have hany : hostsC.any (fun x => decide (x.fqdn = data.fqdn)) = true := by
    simp only [List.any_eq_true, decide_eq_true_eq]
    exact ⟨h, hm, hf⟩
  simp [addDBRace, hlook, createHost, hany]

/-- C5 witness: the amended theorem applied at a lookup over the empty
table racing with a creator that already inserted "web01". -/
theorem addDB_create_race_propagates_error_witness :
    addDBRace ⟨"web01", "failed", "h2", 2, 1, 0, 1, 0, "r", "b", 0⟩
      "web01/h2" 2000 []
      [⟨1, "web01", "", "", 0, "", 0, 0, 0⟩] [] [] =
      .error "UNIQUE constraint failed: hosts.fqdn" :=
  addDB_create_race_propagates_error
    ⟨"web01", "failed", "h2", 2, 1, 0, 1, 0, "r", "b", 0⟩
    "web01/h2" 2000 [] [⟨1, "web01", "", "", 0, "", 0, 0, 0⟩] [] []
    (by decide) ⟨⟨1, "web01", "", "", 0, "", 0, 0, 0⟩, by decide, by decide⟩

/-- C2 (counterexample): a staged submission whose bytes fail to parse
makes the worker return early with the staging file still present — no
removal of the staging artifact is attempted on a parse failure. -/
theorem asyncSaver_keeps_temp_on_parse_failure_cex :
    (AsyncReportSubmissionSaver (fun _ => .error "failed to parse")
       "u1" 0 true true [("u1", "bad-bytes")] ⟨[], ⟨[], [], []⟩⟩).removedTemp
        = false ∧
    (AsyncReportSubmissionSaver (fun _ => .error "failed to parse")
       "u1" 0 true true [("u1", "bad-bytes")] ⟨[], ⟨[], [], []⟩⟩).tmp
        = [("u1", "bad-bytes")] := by
  exact ⟨rfl, rfl⟩

/-- C2 (amended): the worker deletes the staging file exactly when the
staged bytes are readable and parse successfully, the host directory is
available, the artifact is not already present and the artifact write
succeeds (a failure of the store record itself is ignored and the file
is still removed); on any earlier failure — unreadable staging file,
parse error, directory failure, duplicate, write error — it returns
with the staging directory and web state untouched and the file kept. -/
theorem asyncSaver_removes_temp_iff
    (parse : String → Except String PuppetReport)
    (uuid : String) (at_ : Int) (dirOk writeOk : Bool)
    (tmp : List (String × String)) (w : WebState) :
    ((AsyncReportSubmissionSaver parse uuid at_ dirOk writeOk tmp w).removedTemp
        = true ↔
      ∃ p, tmp.find? (fun q => q.1 = uuid) = some p ∧
        ∃ report, parse p.2 = .ok report ∧ dirOk = true ∧
          artifactPath report ∉ w.artifacts ∧ writeOk = true) ∧
    ((AsyncReportSubmissionSaver parse uuid at_ dirOk writeOk tmp w).removedTemp
        = false →
      AsyncReportSubmissionSaver parse uuid at_ dirOk writeOk tmp w
        = ⟨tmp, w, false⟩) := by
  unfold AsyncReportSubmissionSaver
  rcases hfind : tmp.find? (fun q => decide (q.1 = uuid)) with _ | p
  · simp [hfind]
  · rcases hp : parse p.2 with e | report
    · simp [hfind, hp]
    · rcases dirOk with _ | _
      · simp [hfind, hp]
      · by_cases hdup : artifactPath report ∈ w.artifacts
        · simp [hfind, hp, hdup]
        · rcases writeOk with _ | _
          · simp [hfind, hp, hdup]
          · simp [hfind, hp, hdup]

/-- C2 witness: the amended theorem applied at a staged file that
parses successfully with every step succeeding. -/
theorem asyncSaver_removes_temp_iff_witness :
    ((AsyncReportSubmissionSaver
        (fun _ => .ok ⟨"web01", "changed", "h1", 1, 0, 1, 1, 0, "r", "b", 0⟩)
        "u2" 5 true true [("u2", "good-bytes")] ⟨[], ⟨[], [], []⟩⟩).removedTemp
        = true ↔
      ∃ p, [("u2", "good-bytes")].find? (fun q => q.1 = "u2") = some p ∧
        ∃ report, (fun (_ : String) =>
            (.ok ⟨"web01", "changed", "h1", 1, 0, 1, 1, 0, "r", "b", 0⟩ :
              Except String PuppetReport)) p.2 = .ok report ∧ true = true ∧
          artifactPath report ∉ ([] : List String) ∧ true = true) ∧
    ((AsyncReportSubmissionSaver
        (fun _ => .ok ⟨"web01", "changed", "h1", 1, 0, 1, 1, 0, "r", "b", 0⟩)
        "u2" 5 true true [("u2", "good-bytes")] ⟨[], ⟨[], [], []⟩⟩).removedTemp
        = false →
      AsyncReportSubmissionSaver
        (fun _ => .ok ⟨"web01", "changed", "h1", 1, 0, 1, 1, 0, "r", "b", 0⟩)
        "u2" 5 true true [("u2", "good-bytes")] ⟨[], ⟨[], [], []⟩⟩
        = ⟨[("u2", "good-bytes")], ⟨[], ⟨[], [], []⟩⟩, false⟩) :=
  asyncSaver_removes_temp_iff
    (fun _ => .ok ⟨"web01", "changed", "h1", 1, 0, 1, 1, 0, "r", "b", 0⟩)
    "u2" 5 true true [("u2", "good-bytes")] ⟨[], ⟨[], [], []⟩⟩

/-- Every member of a list of naturals is bounded by the foldr of max
over it. -/
lemma mem_le_foldr_max (l : List Nat) (a : Nat) (ha : a ∈ l) :
    a ≤ l.foldr max 0 := by
  induction l with
  | nil => cases ha
  | cons x xs ih =>
    rcases List.mem_cons.mp ha with h | h
    · subst h; exact le_max_left _ _
    · exact le_trans (ih h) (le_max_right _ _)

/-- The fresh AUTOINCREMENT id of the history table exceeds every
existing id. -/
lemma hid_lt_freshHistoryId (hist : List HistoryRow) (b : HistoryRow)
    (hb : b ∈ hist) : b.hid < freshHistoryId hist :=
  Nat.lt_succ_of_le (mem_le_foldr_max _ _ (List.mem_map_of_mem _ hb))

/-- The per-id counter UPDATE leaves every bucket whose id differs from
the targeted one untouched. -/
lemma map_bump_id (xs : List HistoryRow) (st : String) (i : Nat)
    (hni : ∀ b ∈ xs, b.hid ≠ i) :
    xs.map (fun b => if b.hid = i then bump st b else b) = xs := by
  induction xs with
  | nil => rfl
  | cons y ys ih =>
    have hy : y.hid ≠ i := hni y (List.mem_cons_self _ _)
    simp only [List.map_cons, if_neg hy]
    rw [ih (fun b hb => hni b (List.mem_cons_of_mem _ hb))]

/-- updateHistory when a bucket for the day already exists: the first
bucket carrying the date key receives the per-state deltas and every
other row is unchanged. -/
lemma updateHistory_found (at_ : Int) (st : String)
    (pre post : List HistoryRow) (b : HistoryRow)
    (hkey : b.hdate = dateKey at_)
    (hpre : ∀ x ∈ pre, x.hdate ≠ dateKey at_)
    (hids : ((pre ++ b :: post).map HistoryRow.hid).Nodup) :
    updateHistory at_ st (pre ++ b :: post) = pre ++ bump st b :: post := by
  have hfind : (pre ++ b :: post).find? (fun x => decide (x.hdate = dateKey at_))
      = some b := by
    rw [List.find?_append]
    have h1 : pre.find? (fun x => decide (x.hdate = dateKey at_)) = none := by
      rw [List.find?_eq_none]
      intro x hx
      simpa using hpre x hx
    rw [h1, Option.none_or, List.find?_cons_of_pos]
    simpa using hkey
  have hnid : ∀ x ∈ pre ++ post, x.hid ≠ b.hid := by
    intro x hx
    have h2 := hids
    rw [List.map_append, List.map_cons, List.nodup_append] at h2
    rcases List.mem_append.mp hx with hx | hx
    · intro he
      exact (List.disjoint_left.mp h2.2.2 (he ▸ List.mem_map_of_mem _ hx))
        (List.mem_cons_self _ _)
    · intro he
      exact (List.nodup_cons.mp h2.2.1).1 (he ▸ List.mem_map_of_mem _ hx)
  unfold updateHistory insertHistoryIfAbsent bumpHistory
  rw [hfind]
  simp only [Option.isSome_some, if_pos]
  rw [hfind]
  simp only [List.map_append, List.map_cons, if_pos rfl]
  rw [map_bump_id pre st b.hid (fun x hx => hnid x (List.mem_append.mpr (Or.inl hx))),
      map_bump_id post st b.hid (fun x hx => hnid x (List.mem_append.mpr (Or.inr hx)))]
  simp

/-- updateHistory when no bucket for the day exists: a zero bucket with
the fresh id is appended and then receives the per-state deltas; every
pre-existing row is unchanged. -/
lemma updateHistory_absent (at_ : Int) (st : String)
    (hist : List HistoryRow)
    (habs : ∀ x ∈ hist, x.hdate ≠ dateKey at_) :
    updateHistory at_ st hist =
      hist ++ [bump st ⟨freshHistoryId hist, dateKey at_, 0, 0, 0⟩] := by
  have hnone : hist.find? (fun x => decide (x.hdate = dateKey at_)) = none := by
    rw [List.find?_eq_none]
    intro x hx
    simpa using habs x hx
  have hfind : (hist ++ [(⟨freshHistoryId hist, dateKey at_, 0, 0, 0⟩ : HistoryRow)]).find?
      (fun x => decide (x.hdate = dateKey at_))
      = some ⟨freshHistoryId hist, dateKey at_, 0, 0, 0⟩ := by
    rw [List.find?_append, hnone, Option.none_or, List.find?_cons_of_pos]
    simp
  unfold updateHistory insertHistoryIfAbsent bumpHistory
  rw [hnone]
  simp only [Option.isSome_none, Bool.false_eq_true, if_neg, not_false_iff]
  rw [hfind]
  simp only [List.map_append, List.map_cons, List.map_nil, if_pos rfl]
  rw [map_bump_id hist st (freshHistoryId hist)
    (fun x hx => Nat.ne_of_lt (hid_lt_freshHistoryId hist x hx))]
  simp

/-- Bumping one bucket raises its counter total by the weight of the
state. -/
lemma histTotal_bump (st : String) (b : HistoryRow) :
    (bump st b).failed + (bump st b).changed + (bump st b).unchanged =
      (b.failed + b.changed + b.unchanged) + stateWeight st := by
  simp only [bump, stateWeight]
  omega

/-- The per-id counter UPDATE raises the grand total by the weight of
the state when the targeted id occurs exactly once. -/
lemma histTotal_map_bump (hist : List HistoryRow) (st : String) (i : Nat)
    (hmem : i ∈ hist.map HistoryRow.hid)
    (hnd : (hist.map HistoryRow.hid).Nodup) :
    histTotal (hist.map (fun b => if b.hid = i then bump st b else b)) =
      histTotal hist + stateWeight st := by
  induction hist with
  | nil => cases hmem
  | cons x xs ih =>
    simp only [List.map_cons] at hmem hnd
    rcases List.mem_cons.mp hmem with h | h
    · have hx : x.hid = i := h.symm
      have hni : ∀ b ∈ xs, b.hid ≠ i := by
        intro b hb he
        exact (List.nodup_cons.mp hnd).1 (hx ▸ he ▸ List.mem_map_of_mem _ hb)
      simp only [histTotal, List.map_cons, List.sum_cons, if_pos hx]
      rw [map_bump_id xs st i hni]
      have := histTotal_bump st x
      omega
    · have hx : x.hid ≠ i := by
        intro he
        exact (List.nodup_cons.mp hnd).1 (he ▸ h)
      have := ih h (List.nodup_cons.mp hnd).2
      simp only [histTotal, List.map_cons, List.sum_cons, if_neg hx] at this ⊢
      omega

/-- One updateHistory call raises the grand counter total by exactly
the weight of the state: 1 for failed/changed/unchanged, 0 for any
other state. -/
lemma histTotal_updateHistory (at_ : Int) (st : String)
    (hist : List HistoryRow)
    (hnd : (hist.map HistoryRow.hid).Nodup) :
    histTotal (updateHistory at_ st hist) = histTotal hist + stateWeight st := by
  rcases hfind : hist.find? (fun x => decide (x.hdate = dateKey at_)) with _ | b
  · have habs : ∀ x ∈ hist, x.hdate ≠ dateKey at_ := by
      intro x hx
      have := List.find?_eq_none.mp hfind x hx
      simpa using this
    rw [updateHistory_absent at_ st hist habs]
    simp only [histTotal, List.map_append, List.sum_append, List.map_cons,
      List.map_nil, List.sum_cons, List.sum_nil]
    have := histTotal_bump st ⟨freshHistoryId hist, dateKey at_, 0, 0, 0⟩
    simp only [histTotal] at this ⊢
    omega
  · have hb := List.mem_of_find?_eq_some hfind
    have hkey : b.hdate = dateKey at_ := by
      have := List.find?_some hfind
      simpa using this
    have hinsert : insertHistoryIfAbsent at_ hist = hist := by
      unfold insertHistoryIfAbsent
      rw [hfind]
      rfl
    show histTotal (bumpHistory at_ st (insertHistoryIfAbsent at_ hist)) = _
    rw [hinsert]
    unfold bumpHistory
    rw [hfind]
    exact histTotal_map_bump hist st b.hid (List.mem_map_of_mem _ hb) hnd

/-- C9: updateHistory maps the ingestion epoch to its calendar-day key
and (a) when a bucket for that day already exists adds the per-state
deltas to it, leaving every other row unchanged; (b) when none exists
appends a bucket created with all three counters zero and then bumped;
(c) the deltas add one to exactly the counter matching the state
"failed", "changed" or "unchanged" and leave the other two counters
unchanged; (d) any state outside that closed set changes no counter;
(e) hence no counter ever decreases. -/
theorem updateHistory_increment_spec :
    (∀ (at_ : Int) (st : String) (pre post : List HistoryRow) (b : HistoryRow),
       b.hdate = dateKey at_ →
       (∀ x ∈ pre, x.hdate ≠ dateKey at_) →
       ((pre ++ b :: post).map HistoryRow.hid).Nodup →
       updateHistory at_ st (pre ++ b :: post) = pre ++ bump st b :: post) ∧
    (∀ (at_ : Int) (st : String) (hist : List HistoryRow),
       (∀ x ∈ hist, x.hdate ≠ dateKey at_) →
       updateHistory at_ st hist =
         hist ++ [bump st ⟨freshHistoryId hist, dateKey at_, 0, 0, 0⟩]) ∧
    (∀ b : HistoryRow,
       bump "failed" b = { b with failed := b.failed + 1 } ∧
       bump "changed" b = { b with changed := b.changed + 1 } ∧
       bump "unchanged" b = { b with unchanged := b.unchanged + 1 }) ∧
    (∀ (st : String) (b : HistoryRow),
       st ≠ "failed" → st ≠ "changed" → st ≠ "unchanged" → bump st b = b) ∧
    (∀ (st : String) (b : HistoryRow),
       b.failed ≤ (bump st b).failed ∧ b.changed ≤ (bump st b).changed ∧
       b.unchanged ≤ (bump st b).unchanged) := by
  refine ⟨updateHistory_found, updateHistory_absent, ?_, ?_, ?_⟩
  · intro b
    refine ⟨?_, ?_, ?_⟩ <;> simp [bump, stateDeltas]
  · intro st b h1 h2 h3
    simp [bump, stateDeltas, h1, h2, h3]
  · intro st b
    refine ⟨?_, ?_, ?_⟩ <;> simp [bump]

/-- C9 witness: a concrete run of both branches — an existing bucket
for the day of epoch 100000 is bumped on its changed counter with its
neighbours untouched, and for a day with no bucket a zero bucket is
created and bumped. -/
theorem updateHistory_increment_spec_witness :
    updateHistory 100000 "changed"
        ([⟨1, 0, 1, 2, 3⟩] ++ ⟨2, 1, 4, 5, 6⟩ :: [⟨3, 2, 7, 8, 9⟩]) =
      [⟨1, 0, 1, 2, 3⟩] ++ bump "changed" ⟨2, 1, 4, 5, 6⟩ :: [⟨3, 2, 7, 8, 9⟩] ∧
    updateHistory 200000 "failed" [⟨1, 0, 1, 2, 3⟩] =
      [⟨1, 0, 1, 2, 3⟩] ++
        [bump "failed" ⟨freshHistoryId [⟨1, 0, 1, 2, 3⟩], dateKey 200000, 0, 0, 0⟩] :=
  ⟨updateHistory_increment_spec.1 100000 "changed"
      [⟨1, 0, 1, 2, 3⟩] [⟨3, 2, 7, 8, 9⟩] ⟨2, 1, 4, 5, 6⟩
      (by decide) (by decide) (by decide),
   updateHistory_increment_spec.2.1 200000 "failed" [⟨1, 0, 1, 2, 3⟩]
      (by decide)⟩

/-- C1 (counterexample): running addDB for host "web01" (already
registered, with a zeroed bucket already present for the ingestion
day), some observable intermediate state contains the inserted report
row while the history table is still exactly the pre-ingestion one —
the history increment is not inside the transaction. -/
theorem addDB_history_outside_tx_cex :
    ∃ st ∈ addDBTrace ⟨"web01", "changed", "h1", 5, 0, 1, 3, 0, "r", "b", 0⟩
        "web01/h1" 1000000
        ⟨[], [⟨1, "web01", "r", "b", 0, "unchanged", 500, 10, 0⟩],
         [⟨1, 11, 0, 0, 0⟩]⟩,
      (∃ r ∈ st.reports, r.yaml_file = "web01/h1") ∧
      st.history = [⟨1, 11, 0, 0, 0⟩] := by
  decide

/-- When every registered host has a nonzero id, addDB succeeds and
returns the store with the report row appended, the history bucket
incremented and a host row (created on first contact when needed)
carrying the fresh snapshot. -/
lemma addDB_ok_spec (data : PuppetReport) (path : String) (at_ : Int)
    (s : DBState) (hhid : ∀ h ∈ s.hosts, h.host_id ≠ 0) :
    ∃ d, addDB data path at_ s = Except.ok d ∧
      (∃ i, d.reports = insertReport data path i at_ s.reports) ∧
      d.history = updateHistory at_ data.state s.history ∧
      (∃ h ∈ d.hosts, h.fqdn = data.fqdn ∧ h.last_seen = at_ ∧
        h.state = data.state ∧ h.runtime = data.runtime) := by
  rcases hf : s.hosts.find? (fun h => decide (h.fqdn = data.fqdn)) with _ | h0
  · -- first contact: the host row is created before the transaction
    have hlook : getHostId data.fqdn s.hosts = 0 := by
      unfold getHostId
      rw [hf]
    have hany : s.hosts.any (fun h => decide (h.fqdn = data.fqdn)) = false := by
      rw [List.any_eq_false]
      exact List.find?_eq_none.mp hf
    have hcreate : createHost data.fqdn s.hosts =
        .ok (getHostId data.fqdn
              (s.hosts ++ [⟨freshHostId s.hosts, data.fqdn, "", "", 0, "", 0, 0, 0⟩]),
             s.hosts ++ [⟨freshHostId s.hosts, data.fqdn, "", "", 0, "", 0, 0, 0⟩]) := by
      unfold createHost
      rw [hany]
      rfl
    have hlook' : getHostId data.fqdn
        (s.hosts ++ [⟨freshHostId s.hosts, data.fqdn, "", "", 0, "", 0, 0, 0⟩]) =
        freshHostId s.hosts := by
      unfold getHostId
      rw [List.find?_append, hf, Option.none_or, List.find?_cons_of_pos]
      simp
    refine ⟨⟨insertReport data path (freshHostId s.hosts) at_ s.reports,
            updateHost data at_ (freshHostId s.hosts)
              (s.hosts ++ [⟨freshHostId s.hosts, data.fqdn, "", "", 0, "", 0, 0, 0⟩]),
            updateHistory at_ data.state s.history⟩, ?_, ⟨_, rfl⟩, rfl, ?_⟩
    · unfold addDB addDBRace
      rw [hlook, if_pos rfl, hcreate]
      rw [hlook']
    · refine ⟨applySnapshot data at_ ⟨freshHostId s.hosts, data.fqdn, "", "", 0, "", 0, 0, 0⟩,
        ?_, rfl, rfl, rfl, rfl⟩
      have hmem : (⟨freshHostId s.hosts, data.fqdn, "", "", 0, "", 0, 0, 0⟩ : HostRow) ∈
          s.hosts ++ [⟨freshHostId s.hosts, data.fqdn, "", "", 0, "", 0, 0, 0⟩] :=
        List.mem_append.mpr (Or.inr (List.mem_singleton.mpr rfl))
      have heq : (fun h => if h.host_id = freshHostId s.hosts then
          applySnapshot data at_ h else h)
          (⟨freshHostId s.hosts, data.fqdn, "", "", 0, "", 0, 0, 0⟩ : HostRow) =
          applySnapshot data at_ ⟨freshHostId s.hosts, data.fqdn, "", "", 0, "", 0, 0, 0⟩ := by
        show (if freshHostId s.hosts = freshHostId s.hosts then _ else _) = _
        rw [if_pos rfl]
      exact heq ▸ List.mem_map_of_mem _ hmem
  · -- the host is registered: the lookup feeds the update directly
    have hne : h0.host_id ≠ 0 := hhid h0 (List.mem_of_find?_eq_some hf)
    have hlook : getHostId data.fqdn s.hosts = h0.host_id := by
      unfold getHostId
      rw [hf]
    have hfq : h0.fqdn = data.fqdn := by
      have := List.find?_some hf
      simpa using this
    refine ⟨⟨insertReport data path h0.host_id at_ s.reports,
            updateHost data at_ h0.host_id s.hosts,
            updateHistory at_ data.state s.history⟩, ?_, ⟨_, rfl⟩, rfl, ?_⟩
    · unfold addDB addDBRace
      rw [hlook, if_neg hne]
    · refine ⟨applySnapshot data at_ h0, ?_, hfq, rfl, rfl, rfl⟩
      have heq : (fun h => if h.host_id = h0.host_id then
          applySnapshot data at_ h else h) h0 = applySnapshot data at_ h0 := by
        show (if h0.host_id = h0.host_id then _ else _) = _
        rw [if_pos rfl]
      exact heq ▸ List.mem_map_of_mem _ (List.mem_of_find?_eq_some hf)

/-- C1 (amended): for every successful ingestion — whether the fqdn is
already registered or the host row is first created — the report
insert and the host-snapshot update are one atomic unit: every state a
concurrent reader can observe contains the new report row exactly when
it contains the snapshot of this ingestion.  The history increment is
applied only after the commit, so a state with the report row visible
and the history table untouched is observable; when addDB returns
successfully all three mutations are visible.  The hypotheses say the
ids are the schema's nonzero autoincrement keys, the parsed state is a
recognized (nonempty) one, and the pre-state does not already carry
this ingestion's artifact or snapshot. -/
theorem addDB_tx_report_host_atomic (data : PuppetReport) (path : String)
    (at_ : Int) (s : DBState)
    (hhid : ∀ h ∈ s.hosts, h.host_id ≠ 0)
    (hstate : data.state ≠ "")
    (hfresh : ∀ r ∈ s.reports, r.yaml_file ≠ path)
    (hnot : ∀ h ∈ s.hosts, ¬(h.fqdn = data.fqdn ∧ h.last_seen = at_ ∧
      h.state = data.state ∧ h.runtime = data.runtime))
    (hnd : (s.history.map HistoryRow.hid).Nodup) :
    (∀ st ∈ addDBTrace data path at_ s,
       ((∃ r ∈ st.reports, r.yaml_file = path) ↔
        (∃ h ∈ st.hosts, h.fqdn = data.fqdn ∧ h.last_seen = at_ ∧
          h.state = data.state ∧ h.runtime = data.runtime))) ∧
    (∃ st ∈ addDBTrace data path at_ s,
       (∃ r ∈ st.reports, r.yaml_file = path) ∧ st.history = s.history) ∧
    (∀ res, addDB data path at_ s = .ok res →
       (∃ r ∈ res.reports, r.yaml_file = path) ∧
       (∃ h ∈ res.hosts, h.fqdn = data.fqdn ∧ h.last_seen = at_ ∧
         h.state = data.state ∧ h.runtime = data.runtime) ∧
       histTotal res.history = histTotal s.history + stateWeight data.state) := by
  have hbase : ¬ (∃ r ∈ s.reports, r.yaml_file = path) := by
    rintro ⟨r, hr, hy⟩
    exact hfresh r hr hy
  have hbaseh : ¬ (∃ h ∈ s.hosts, h.fqdn = data.fqdn ∧ h.last_seen = at_ ∧
      h.state = data.state ∧ h.runtime = data.runtime) := by
    rintro ⟨h, hh, hc⟩
    exact hnot h hh hc
  have hthird : ∀ res, addDB data path at_ s = .ok res →
      (∃ r ∈ res.reports, r.yaml_file = path) ∧
      (∃ h ∈ res.hosts, h.fqdn = data.fqdn ∧ h.last_seen = at_ ∧
        h.state = data.state ∧ h.runtime = data.runtime) ∧
      histTotal res.history = histTotal s.history + stateWeight data.state := by
    obtain ⟨d, hok, ⟨j, hrepshape⟩, hhist, hhostEx⟩ :=
      addDB_ok_spec data path at_ s hhid
    intro res hres
    rw [hok] at hres
    have hd : d = res := Except.ok.inj hres
    subst hd
    refine ⟨?_, hhostEx, ?_⟩
    · rw [hrepshape]
      exact ⟨_, List.mem_append.mpr (Or.inr (List.mem_singleton.mpr rfl)), rfl⟩
    · rw [hhist]
      exact histTotal_updateHistory at_ data.state s.history hnd
  rcases hf : s.hosts.find? (fun h => decide (h.fqdn = data.fqdn)) with _ | h0
  · -- first contact: createHost runs as its own statement, then the tx
    have hlook : getHostId data.fqdn s.hosts = 0 := by
      unfold getHostId
      rw [hf]
    have hany : s.hosts.any (fun h => decide (h.fqdn = data.fqdn)) = false := by
      rw [List.any_eq_false]
      exact List.find?_eq_none.mp hf
    have hcreate : createHost data.fqdn s.hosts =
        .ok (getHostId data.fqdn
              (s.hosts ++ [⟨freshHostId s.hosts, data.fqdn, "", "", 0, "", 0, 0, 0⟩]),
             s.hosts ++ [⟨freshHostId s.hosts, data.fqdn, "", "", 0, "", 0, 0, 0⟩]) := by
      unfold createHost
      rw [hany]
      rfl
    have hlook' : getHostId data.fqdn
        (s.hosts ++ [⟨freshHostId s.hosts, data.fqdn, "", "", 0, "", 0, 0, 0⟩]) =
        freshHostId s.hosts := by
      unfold getHostId
      rw [List.find?_append, hf, Option.none_or, List.find?_cons_of_pos]
      simp
    have htr : addDBTrace data path at_ s =
        [s,
         ⟨s.reports,
          s.hosts ++ [⟨freshHostId s.hosts, data.fqdn, "", "", 0, "", 0, 0, 0⟩],
          s.history⟩,
         ⟨insertReport data path (freshHostId s.hosts) at_ s.reports,
          updateHost data at_ (freshHostId s.hosts)
            (s.hosts ++ [⟨freshHostId s.hosts, data.fqdn, "", "", 0, "", 0, 0, 0⟩]),
          s.history⟩,
         ⟨insertReport data path (freshHostId s.hosts) at_ s.reports,
          updateHost data at_ (freshHostId s.hosts)
            (s.hosts ++ [⟨freshHostId s.hosts, data.fqdn, "", "", 0, "", 0, 0, 0⟩]),
          insertHistoryIfAbsent at_ s.history⟩,
         ⟨insertReport data path (freshHostId s.hosts) at_ s.reports,
          updateHost data at_ (freshHostId s.hosts)
            (s.hosts ++ [⟨freshHostId s.hosts, data.fqdn, "", "", 0, "", 0, 0, 0⟩]),
          updateHistory at_ data.state s.history⟩] := by
      unfold addDBTrace
      rw [hlook, if_pos rfl, hcreate, hlook']
    have hrep : ∃ r ∈ insertReport data path (freshHostId s.hosts) at_ s.reports,
        r.yaml_file = path := by
      refine ⟨_, List.mem_append.mpr (Or.inr (List.mem_singleton.mpr rfl)), rfl⟩
    have hhost : ∃ h ∈ updateHost data at_ (freshHostId s.hosts)
        (s.hosts ++ [⟨freshHostId s.hosts, data.fqdn, "", "", 0, "", 0, 0, 0⟩]),
        h.fqdn = data.fqdn ∧ h.last_seen = at_ ∧ h.state = data.state ∧
        h.runtime = data.runtime := by
      refine ⟨applySnapshot data at_
        ⟨freshHostId s.hosts, data.fqdn, "", "", 0, "", 0, 0, 0⟩,
        ?_, rfl, rfl, rfl, rfl⟩
      have hmem : (⟨freshHostId s.hosts, data.fqdn, "", "", 0, "", 0, 0, 0⟩ : HostRow) ∈
          s.hosts ++ [⟨freshHostId s.hosts, data.fqdn, "", "", 0, "", 0, 0, 0⟩] :=
        List.mem_append.mpr (Or.inr (List.mem_singleton.mpr rfl))
      have heq : (fun h => if h.host_id = freshHostId s.hosts then
          applySnapshot data at_ h else h)
          (⟨freshHostId s.hosts, data.fqdn, "", "", 0, "", 0, 0, 0⟩ : HostRow) =
          applySnapshot data at_
            ⟨freshHostId s.hosts, data.fqdn, "", "", 0, "", 0, 0, 0⟩ := by
        show (if freshHostId s.hosts = freshHostId s.hosts then _ else _) = _
        rw [if_pos rfl]
      exact heq ▸ List.mem_map_of_mem _ hmem
    have hmid : ¬ (∃ h ∈ s.hosts ++
        [⟨freshHostId s.hosts, data.fqdn, "", "", 0, "", 0, 0, 0⟩],
        h.fqdn = data.fqdn ∧ h.last_seen = at_ ∧ h.state = data.state ∧
        h.runtime = data.runtime) := by
      rintro ⟨h, hh, hc⟩
      rcases List.mem_append.mp hh with hh | hh
      · exact hnot h hh hc
      · have hhe : h = ⟨freshHostId s.hosts, data.fqdn, "", "", 0, "", 0, 0, 0⟩ :=
          List.mem_singleton.mp hh
        subst hhe
        exact hstate hc.2.2.1.symm
    refine ⟨?_, ?_, hthird⟩
    · rw [htr]
      intro st hst
      simp only [List.mem_cons, List.not_mem_nil, or_false] at hst
      rcases hst with rfl | rfl | rfl | rfl | rfl
      · exact ⟨fun h => absurd h hbase, fun h => absurd h hbaseh⟩
      · exact ⟨fun h => absurd h hbase, fun h => absurd h hmid⟩
      · exact ⟨fun _ => hhost, fun _ => hrep⟩
      · exact ⟨fun _ => hhost, fun _ => hrep⟩
      · exact ⟨fun _ => hhost, fun _ => hrep⟩
    · rw [htr]
      refine ⟨⟨insertReport data path (freshHostId s.hosts) at_ s.reports,
              updateHost data at_ (freshHostId s.hosts)
                (s.hosts ++ [⟨freshHostId s.hosts, data.fqdn, "", "", 0, "", 0, 0, 0⟩]),
              s.history⟩, ?_, hrep, rfl⟩
      simp
  · -- the host is registered: no create statement, the tx runs directly
    have hne : h0.host_id ≠ 0 := hhid h0 (List.mem_of_find?_eq_some hf)
    have hlook : getHostId data.fqdn s.hosts = h0.host_id := by
      unfold getHostId
      rw [hf]
    have hfq : h0.fqdn = data.fqdn := by
      have := List.find?_some hf
      simpa using this
    have hh0m : h0 ∈ s.hosts := List.mem_of_find?_eq_some hf
    have htr : addDBTrace data path at_ s =
        [s,
         { s with reports := insertReport data path h0.host_id at_ s.reports,
                  hosts := updateHost data at_ h0.host_id s.hosts },
         { s with reports := insertReport data path h0.host_id at_ s.reports,
                  hosts := updateHost data at_ h0.host_id s.hosts,
                  history := insertHistoryIfAbsent at_ s.history },
         { s with reports := insertReport data path h0.host_id at_ s.reports,
                  hosts := updateHost data at_ h0.host_id s.hosts,
                  history := updateHistory at_ data.state s.history }] := by
      unfold addDBTrace
      rw [hlook, if_neg hne]
    have hrep : ∃ r ∈ insertReport data path h0.host_id at_ s.reports,
        r.yaml_file = path := by
      refine ⟨_, List.mem_append.mpr (Or.inr (List.mem_singleton.mpr rfl)), rfl⟩
    have hhost : ∃ h ∈ updateHost data at_ h0.host_id s.hosts,
        h.fqdn = data.fqdn ∧ h.last_seen = at_ ∧ h.state = data.state ∧
        h.runtime = data.runtime := by
      refine ⟨applySnapshot data at_ h0, ?_, hfq, rfl, rfl, rfl⟩
      have heq : (fun h => if h.host_id = h0.host_id then
          applySnapshot data at_ h else h) h0 = applySnapshot data at_ h0 := by
        show (if h0.host_id = h0.host_id then _ else _) = _
        rw [if_pos rfl]
      exact heq ▸ List.mem_map_of_mem _ hh0m
    refine ⟨?_, ?_, hthird⟩
    · rw [htr]
      intro st hst
      simp only [List.mem_cons, List.not_mem_nil, or_false] at hst
      rcases hst with rfl | rfl | rfl | rfl
      · exact ⟨fun h => absurd h hbase, fun h => absurd h hbaseh⟩
      · exact ⟨fun _ => hhost, fun _ => hrep⟩
      · exact ⟨fun _ => hhost, fun _ => hrep⟩
      · exact ⟨fun _ => hhost, fun _ => hrep⟩
    · rw [htr]
      refine ⟨⟨insertReport data path h0.host_id at_ s.reports,
              updateHost data at_ h0.host_id s.hosts, s.history⟩, ?_, hrep, rfl⟩
      simp

/-- C1 witness: the amended theorem applied at two concrete states —
the registered host of the counterexample, and a first contact against
the empty store, which goes through the createHost statement. -/
theorem addDB_tx_report_host_atomic_witness :
    ((∀ st ∈ addDBTrace ⟨"web01", "changed", "h1", 5, 0, 1, 3, 0, "r", "b", 0⟩
        "web01/h1" 1000000
        ⟨[], [⟨1, "web01", "r", "b", 0, "unchanged", 500, 10, 0⟩],
         [⟨1, 11, 0, 0, 0⟩]⟩,
       ((∃ r ∈ st.reports, r.yaml_file = "web01/h1") ↔
        (∃ h ∈ st.hosts, h.fqdn = "web01" ∧ h.last_seen = 1000000 ∧
          h.state = "changed" ∧ h.runtime = 5))) ∧
    (∃ st ∈ addDBTrace ⟨"web01", "changed", "h1", 5, 0, 1, 3, 0, "r", "b", 0⟩
        "web01/h1" 1000000
        ⟨[], [⟨1, "web01", "r", "b", 0, "unchanged", 500, 10, 0⟩],
         [⟨1, 11, 0, 0, 0⟩]⟩,
       (∃ r ∈ st.reports, r.yaml_file = "web01/h1") ∧
       st.history = [⟨1, 11, 0, 0, 0⟩]) ∧
    (∀ res, addDB ⟨"web01", "changed", "h1", 5, 0, 1, 3, 0, "r", "b", 0⟩
        "web01/h1" 1000000
        ⟨[], [⟨1, "web01", "r", "b", 0, "unchanged", 500, 10, 0⟩],
         [⟨1, 11, 0, 0, 0⟩]⟩ = .ok res →
       (∃ r ∈ res.reports, r.yaml_file = "web01/h1") ∧
       (∃ h ∈ res.hosts, h.fqdn = "web01" ∧ h.last_seen = 1000000 ∧
         h.state = "changed" ∧ h.runtime = 5) ∧
       histTotal res.history = histTotal [⟨1, 11, 0, 0, 0⟩] + stateWeight "changed")) ∧
    ((∀ st ∈ addDBTrace ⟨"web02", "failed", "h2", 7, 2, 0, 4, 0, "r", "b", 0⟩
        "web02/h2" 2000000 ⟨[], [], []⟩,
       ((∃ r ∈ st.reports, r.yaml_file = "web02/h2") ↔
        (∃ h ∈ st.hosts, h.fqdn = "web02" ∧ h.last_seen = 2000000 ∧
          h.state = "failed" ∧ h.runtime = 7))) ∧
    (∃ st ∈ addDBTrace ⟨"web02", "failed", "h2", 7, 2, 0, 4, 0, "r", "b", 0⟩
        "web02/h2" 2000000 ⟨[], [], []⟩,
       (∃ r ∈ st.reports, r.yaml_file = "web02/h2") ∧
       st.history = ([] : List HistoryRow)) ∧
    (∀ res, addDB ⟨"web02", "failed", "h2", 7, 2, 0, 4, 0, "r", "b", 0⟩
        "web02/h2" 2000000 ⟨[], [], []⟩ = .ok res →
       (∃ r ∈ res.reports, r.yaml_file = "web02/h2") ∧
       (∃ h ∈ res.hosts, h.fqdn = "web02" ∧ h.last_seen = 2000000 ∧
         h.state = "failed" ∧ h.runtime = 7) ∧
       histTotal res.history = histTotal ([] : List HistoryRow) + stateWeight "failed")) :=
  ⟨addDB_tx_report_host_atomic
    ⟨"web01", "changed", "h1", 5, 0, 1, 3, 0, "r", "b", 0⟩ "web01/h1" 1000000
    ⟨[], [⟨1, "web01", "r", "b", 0, "unchanged", 500, 10, 0⟩],
     [⟨1, 11, 0, 0, 0⟩]⟩
    (by decide) (by decide) (by decide) (by decide) (by decide),
   addDB_tx_report_host_atomic
    ⟨"web02", "failed", "h2", 7, 2, 0, 4, 0, "r", "b", 0⟩ "web02/h2" 2000000
    ⟨[], [], []⟩
    (by decide) (by decide) (by decide) (by decide) (by decide)⟩

/-- C3: submitting the same bytes twice from a state where the artifact
is absent records everything exactly once — the second submission is a
complete no-op on the web state, exactly one report row carries the
artifact path, the history grand total rose by exactly the weight of
the report's state, the host snapshot reflects the first ingestion —
and the duplicate response differs from the fresh-success response. -/
theorem ReportSubmissionHandler_idempotent
    (parse : String → Except String PuppetReport) (content : String)
    (report : PuppetReport) (at1 at2 : Int) (w0 w1 w2 : WebState)
    (r1 r2 : SubmitResult)
    (hp : parse content = Except.ok report)
    (habs : artifactPath report ∉ w0.artifacts)
    (hfresh : ∀ r ∈ w0.db.reports, r.yaml_file ≠ artifactPath report)
    (hhid : ∀ h ∈ w0.db.hosts, h.host_id ≠ 0)
    (hnd : (w0.db.history.map HistoryRow.hid).Nodup)
    (h1 : ReportSubmissionHandler parse content at1 w0 = (w1, r1))
    (h2 : ReportSubmissionHandler parse content at2 w1 = (w2, r2)) :
    w2 = w1 ∧ r1 = SubmitResult.ok report.fqdn ∧
    r2 = SubmitResult.duplicate ∧ r1 ≠ r2 ∧
    w1.db.reports.countP (fun r => decide (r.yaml_file = artifactPath report)) = 1 ∧
    histTotal w1.db.history = histTotal w0.db.history + stateWeight report.state ∧
    (∃ h ∈ w1.db.hosts, h.fqdn = report.fqdn ∧ h.last_seen = at1 ∧
      h.state = report.state ∧ h.runtime = report.runtime) := by
  obtain ⟨d, hok, ⟨i, hrep⟩, hhist, hhostEx⟩ :=
    addDB_ok_spec report (artifactPath report) at1 w0.db hhid
  have h1' : (⟨artifactPath report :: w0.artifacts, d⟩, SubmitResult.ok report.fqdn)
      = (w1, r1) := by
    rw [← h1]
    unfold ReportSubmissionHandler
    rw [hp]
    simp only [hok, if_neg habs]
  have hw1 : w1 = ⟨artifactPath report :: w0.artifacts, d⟩ :=
    (congrArg Prod.fst h1').symm
  have hr1 : r1 = SubmitResult.ok report.fqdn :=
    (congrArg Prod.snd h1').symm
  have hmem1 : artifactPath report ∈ w1.artifacts := by
    rw [hw1]
    exact List.mem_cons_self _ _
  have h2' : (w1, SubmitResult.duplicate) = (w2, r2) := by
    rw [← h2]
    unfold ReportSubmissionHandler
    rw [hp]
    simp only [if_pos hmem1]
  have hw2 : w2 = w1 := (congrArg Prod.fst h2').symm
  have hr2 : r2 = SubmitResult.duplicate := (congrArg Prod.snd h2').symm
  have hdb1 : w1.db = d := by rw [hw1]
  refine ⟨hw2, hr1, hr2, ?_, ?_, ?_, ?_⟩
  · rw [hr1, hr2]
    intro h
    cases h
  · rw [hdb1, hrep]
    unfold insertReport
    rw [List.countP_append]
    have hz : w0.db.reports.countP
        (fun r => decide (r.yaml_file = artifactPath report)) = 0 := by
      rw [List.countP_eq_zero]
      intro r hr
      simpa using hfresh r hr
    rw [hz]
    simp
  · rw [hdb1, hhist]
    exact histTotal_updateHistory at1 report.state w0.db.history hnd
  · rw [hdb1]
    exact hhostEx

/-- C3 witness: a fresh store ingests the same parsed report twice; the
first submission records it, the second is the distinct duplicate
no-op. -/
theorem ReportSubmissionHandler_idempotent_witness :
    ((ReportSubmissionHandler (fun _ => .ok ⟨"web01", "changed", "h1", 5, 0, 1, 3, 0, "r", "b", 9⟩)
        "report-bytes" 2000
        (ReportSubmissionHandler (fun _ => .ok ⟨"web01", "changed", "h1", 5, 0, 1, 3, 0, "r", "b", 9⟩)
          "report-bytes" 1000 ⟨[], ⟨[], [], []⟩⟩).1).1
      = (ReportSubmissionHandler (fun _ => .ok ⟨"web01", "changed", "h1", 5, 0, 1, 3, 0, "r", "b", 9⟩)
          "report-bytes" 1000 ⟨[], ⟨[], [], []⟩⟩).1) ∧
    ((ReportSubmissionHandler (fun _ => .ok ⟨"web01", "changed", "h1", 5, 0, 1, 3, 0, "r", "b", 9⟩)
        "report-bytes" 1000 ⟨[], ⟨[], [], []⟩⟩).2 = SubmitResult.ok "web01") ∧
    ((ReportSubmissionHandler (fun _ => .ok ⟨"web01", "changed", "h1", 5, 0, 1, 3, 0, "r", "b", 9⟩)
        "report-bytes" 2000
        (ReportSubmissionHandler (fun _ => .ok ⟨"web01", "changed", "h1", 5, 0, 1, 3, 0, "r", "b", 9⟩)
          "report-bytes" 1000 ⟨[], ⟨[], [], []⟩⟩).1).2 = SubmitResult.duplicate) ∧
    ((ReportSubmissionHandler (fun _ => .ok ⟨"web01", "changed", "h1", 5, 0, 1, 3, 0, "r", "b", 9⟩)
        "report-bytes" 1000 ⟨[], ⟨[], [], []⟩⟩).2 ≠
      (ReportSubmissionHandler (fun _ => .ok ⟨"web01", "changed", "h1", 5, 0, 1, 3, 0, "r", "b", 9⟩)
        "report-bytes" 2000
        (ReportSubmissionHandler (fun _ => .ok ⟨"web01", "changed", "h1", 5, 0, 1, 3, 0, "r", "b", 9⟩)
          "report-bytes" 1000 ⟨[], ⟨[], [], []⟩⟩).1).2) ∧
    ((ReportSubmissionHandler (fun _ => .ok ⟨"web01", "changed", "h1", 5, 0, 1, 3, 0, "r", "b", 9⟩)
        "report-bytes" 1000 ⟨[], ⟨[], [], []⟩⟩).1.db.reports.countP
      (fun r => decide (r.yaml_file =
        artifactPath ⟨"web01", "changed", "h1", 5, 0, 1, 3, 0, "r", "b", 9⟩)) = 1) ∧
    (histTotal (ReportSubmissionHandler (fun _ => .ok ⟨"web01", "changed", "h1", 5, 0, 1, 3, 0, "r", "b", 9⟩)
        "report-bytes" 1000 ⟨[], ⟨[], [], []⟩⟩).1.db.history =
      histTotal ([] : List HistoryRow) + stateWeight "changed") ∧
    (∃ h ∈ (ReportSubmissionHandler (fun _ => .ok ⟨"web01", "changed", "h1", 5, 0, 1, 3, 0, "r", "b", 9⟩)
        "report-bytes" 1000 ⟨[], ⟨[], [], []⟩⟩).1.db.hosts,
      h.fqdn = "web01" ∧ h.last_seen = 1000 ∧ h.state = "changed" ∧ h.runtime = 5) :=
  ReportSubmissionHandler_idempotent
    (fun _ => .ok ⟨"web01", "changed", "h1", 5, 0, 1, 3, 0, "r", "b", 9⟩)
    "report-bytes" ⟨"web01", "changed", "h1", 5, 0, 1, 3, 0, "r", "b", 9⟩
    1000 2000 ⟨[], ⟨[], [], []⟩⟩ _ _ _ _
    rfl (by decide) (by decide) (by decide) (by decide) rfl rfl

/-- C7: with unique dates and unique ids, pruning the history is a
no-op when at most 14 buckets exist; otherwise it deletes exactly
count - 14 buckets, the oldest by date, leaving exactly 14 buckets all
of whose dates exceed the date of every deleted bucket. -/
theorem pruneHistory_retention (hist : List HistoryRow)
    (hdates : (hist.map HistoryRow.hdate).Nodup)
    (hids : (hist.map HistoryRow.hid).Nodup) :
    (hist.length ≤ 14 → pruneHistory hist = hist) ∧
    (14 < hist.length →
      (pruneHistory hist).length = 14 ∧
      (∀ b ∈ pruneHistory hist, b ∈ hist) ∧
      (∀ b ∈ hist, b ∉ pruneHistory hist →
        ∀ c ∈ pruneHistory hist, b.hdate < c.hdate)) := by
  constructor
  · intro h
    unfold pruneHistory
    rw [if_pos h]
  · intro h
    have hnle : ¬ hist.length ≤ 14 := not_le.mpr h
    have hdef : pruneHistory hist =
        hist.filter (fun b => !(decide (b.hid ∈
          ((hist.mergeSort (fun a b => decide (a.hdate ≤ b.hdate))).take
            (hist.length - 14)).map HistoryRow.hid))) := by
      unfold pruneHistory
      rw [if_neg hnle]
    set le := fun a b : HistoryRow => decide (a.hdate ≤ b.hdate) with hle
    set sorted := hist.mergeSort le with hsorted_def
    set purge := hist.length - 14 with hpurge
    set ids := (sorted.take purge).map HistoryRow.hid with hids_def
    set p := fun b : HistoryRow => !(decide (b.hid ∈ ids)) with hp
    have hperm : sorted.Perm hist := List.mergeSort_perm hist le
    have hpair : List.Pairwise (fun a b => le a b = true) sorted := by
      apply List.sorted_mergeSort
      · intro a b c hab hbc
        simp only [hle, decide_eq_true_eq] at hab hbc ⊢
        exact le_trans hab hbc
      · intro a b
        rcases le_total a.hdate b.hdate with hab | hab <;>
          simp [hle, hab]
    have hsplit : sorted.take purge ++ sorted.drop purge = sorted :=
      List.take_append_drop purge sorted
    have hid_nodup : (sorted.map HistoryRow.hid).Nodup :=
      ((hperm.map HistoryRow.hid).nodup_iff).mpr hids
    have hdate_nodup : (sorted.map HistoryRow.hdate).Nodup :=
      ((hperm.map HistoryRow.hdate).nodup_iff).mpr hdates
    have hid_disj : ∀ b ∈ sorted.drop purge, b.hid ∉ ids := by
      intro b hb hbin
      have hnd := hid_nodup
      rw [← hsplit, List.map_append, List.nodup_append] at hnd
      exact (List.disjoint_left.mp hnd.2.2 hbin) (List.mem_map_of_mem _ hb)
    have hdate_disj : ∀ a ∈ sorted.take purge, ∀ b ∈ sorted.drop purge,
        a.hdate ≠ b.hdate := by
      intro a ha b hb he
      have hnd := hdate_nodup
      rw [← hsplit, List.map_append, List.nodup_append] at hnd
      exact (List.disjoint_left.mp hnd.2.2 (List.mem_map_of_mem _ ha))
        (he ▸ List.mem_map_of_mem _ hb)
    have htk_nil : (sorted.take purge).filter p = [] := by
      rw [List.filter_eq_nil_iff]
      intro a ha
      simp only [hp, Bool.not_eq_true', decide_eq_true_eq, Bool.not_eq_true,
        decide_eq_false_iff_not, not_not]
      exact List.mem_map_of_mem _ ha
    have hdr_self : (sorted.drop purge).filter p = sorted.drop purge := by
      rw [List.filter_eq_self]
      intro a ha
      simp only [hp, Bool.not_eq_true', decide_eq_false_iff_not]
      exact hid_disj a ha
    have hsort_fil : sorted.filter p = sorted.drop purge := by
      conv_lhs => rw [← hsplit]
      rw [List.filter_append, htk_nil, hdr_self, List.nil_append]
    have hres_perm : (pruneHistory hist).Perm (sorted.drop purge) := by
      rw [hdef, ← hsort_fil]
      exact (hperm.filter p).symm
    have hlen : (pruneHistory hist).length = 14 := by
      rw [hres_perm.length_eq, List.length_drop, hperm.length_eq]
      omega
    have hmem_tk : ∀ b ∈ hist, b ∉ pruneHistory hist → b ∈ sorted.take purge := by
      intro b hb hnb
      have hpb : p b = false := by
        by_contra hpb
        exact hnb (hdef ▸ List.mem_filter.mpr
          ⟨hb, Bool.of_not_eq_false hpb⟩)
      have hbin : b.hid ∈ ids := by
        simpa [hp] using hpb
      have hbsorted : b ∈ sorted := hperm.mem_iff.mpr hb
      rw [← hsplit, List.mem_append] at hbsorted
      rcases hbsorted with hbs | hbs
      · exact hbs
      · exact absurd hbin (hid_disj b hbs)
    refine ⟨hlen, ?_, ?_⟩
    · intro b hb
      rw [hdef] at hb
      exact List.mem_of_mem_filter hb
    · intro b hb hnb c hc
      have hbtk : b ∈ sorted.take purge := hmem_tk b hb hnb
      have hcdr : c ∈ sorted.drop purge := hres_perm.mem_iff.mp hc
      have hle' : le b c = true := by
        have := List.pairwise_append.mp (hsplit ▸ hpair)
        exact this.2.2 b hbtk c hcdr
      have hlt : b.hdate ≤ c.hdate := by
        simpa [hle] using hle'
      exact lt_of_le_of_ne hlt (hdate_disj b hbtk c hcdr)

/-- C7 witness: pruning 20 concrete buckets keeps exactly 14
pre-existing rows, each newer than every deleted one. -/
theorem pruneHistory_retention_witness :
    (pruneHistory ((List.range 20).map
        (fun n => (⟨n + 1, (n : Int), 0, 0, 0⟩ : HistoryRow)))).length = 14 ∧
    (∀ b ∈ pruneHistory ((List.range 20).map
        (fun n => (⟨n + 1, (n : Int), 0, 0, 0⟩ : HistoryRow))),
      b ∈ (List.range 20).map
        (fun n => (⟨n + 1, (n : Int), 0, 0, 0⟩ : HistoryRow))) ∧
    (∀ b ∈ (List.range 20).map
        (fun n => (⟨n + 1, (n : Int), 0, 0, 0⟩ : HistoryRow)),
      b ∉ pruneHistory ((List.range 20).map
        (fun n => (⟨n + 1, (n : Int), 0, 0, 0⟩ : HistoryRow))) →
      ∀ c ∈ pruneHistory ((List.range 20).map
        (fun n => (⟨n + 1, (n : Int), 0, 0, 0⟩ : HistoryRow))),
        b.hdate < c.hdate) :=
  (pruneHistory_retention
    ((List.range 20).map (fun n => (⟨n + 1, (n : Int), 0, 0, 0⟩ : HistoryRow)))
    (by decide) (by decide)).2 (by decide)

/-- C10: the per-host report listing is empty-as-error and otherwise
returns at most 50 rows, all for the requested fqdn, ordered newest
first by execution timestamp. -/
theorem getReports_spec (fqdn : String) (reports : List ReportRow) :
    ((reports.filter (fun r => decide (r.fqdn = fqdn))) = [] →
      getReports fqdn reports =
        .error ("Failed to find reports for " ++ fqdn)) ∧
    (∀ l, getReports fqdn reports = Except.ok l →
      l.length ≤ 50 ∧ l ≠ [] ∧ (∀ r ∈ l, r.fqdn = fqdn) ∧
      l.Pairwise (fun a b => b.executed_at ≤ a.executed_at)) := by
  constructor
  · intro hfil
    unfold getReports
    rw [hfil, List.mergeSort_nil]
    rfl
  · intro l hok
    unfold getReports at hok
    set le := fun a b : ReportRow => decide (b.executed_at ≤ a.executed_at)
      with hle
    set sorted := (reports.filter (fun r => decide (r.fqdn = fqdn))).mergeSort le
      with hsorted_def
    by_cases hlen : (sorted.take 50).length < 1
    · rw [if_pos hlen] at hok
      cases hok
    · rw [if_neg hlen] at hok
      have hl : l = sorted.take 50 := (Except.ok.inj hok).symm
      subst hl
      refine ⟨?_, ?_, ?_, ?_⟩
      · rw [List.length_take]
        exact min_le_left _ _
      · exact List.ne_nil_of_length_pos (by omega)
      · intro r hr
        have hrs : r ∈ sorted := List.mem_of_mem_take hr
        have hrf : r ∈ reports.filter (fun r => decide (r.fqdn = fqdn)) :=
          (List.mergeSort_perm _ le).mem_iff.mp hrs
        have := (List.mem_filter.mp hrf).2
        simpa using this
      · have hpair : List.Pairwise (fun a b => le a b = true) sorted := by
          apply List.sorted_mergeSort
          · intro a b c hab hbc
            simp only [hle, decide_eq_true_eq] at hab hbc ⊢
            exact le_trans hbc hab
          · intro a b
            rcases le_total a.executed_at b.executed_at with hab | hab <;>
              simp [hle, hab]
        have := List.Pairwise.sublist (List.take_sublist 50 sorted) hpair
        exact this.imp (fun hab => by simpa [hle] using hab)

/-- C10 witness: two reports for "web01" are returned newest first; a
host with no rows yields the error. -/
theorem getReports_spec_witness :
    (getReports "db09" ([] : List ReportRow) =
        .error ("Failed to find reports for " ++ "db09")) ∧
    ([(⟨2, 1, "web01", "failed", "p2", 0, 200, "", "", 0, 0, 0, 0, 0⟩ : ReportRow),
      ⟨1, 1, "web01", "changed", "p1", 0, 100, "", "", 0, 0, 0, 0, 0⟩].length ≤ 50 ∧
     ([(⟨2, 1, "web01", "failed", "p2", 0, 200, "", "", 0, 0, 0, 0, 0⟩ : ReportRow),
       ⟨1, 1, "web01", "changed", "p1", 0, 100, "", "", 0, 0, 0, 0, 0⟩] ≠ []) ∧
     (∀ r ∈ [(⟨2, 1, "web01", "failed", "p2", 0, 200, "", "", 0, 0, 0, 0, 0⟩ : ReportRow),
        ⟨1, 1, "web01", "changed", "p1", 0, 100, "", "", 0, 0, 0, 0, 0⟩],
       r.fqdn = "web01") ∧
     List.Pairwise (fun a b : ReportRow => b.executed_at ≤ a.executed_at)
       [(⟨2, 1, "web01", "failed", "p2", 0, 200, "", "", 0, 0, 0, 0, 0⟩ : ReportRow),
        ⟨1, 1, "web01", "changed", "p1", 0, 100, "", "", 0, 0, 0, 0, 0⟩]) :=
  ⟨(getReports_spec "db09" ([] : List ReportRow)).1 rfl,
   (getReports_spec "web01"
      [⟨1, 1, "web01", "changed", "p1", 0, 100, "", "", 0, 0, 0, 0, 0⟩,
       ⟨2, 1, "web01", "failed", "p2", 0, 200, "", "", 0, 0, 0, 0, 0⟩]).2
     [⟨2, 1, "web01", "failed", "p2", 0, 200, "", "", 0, 0, 0, 0, 0⟩,
      ⟨1, 1, "web01", "changed", "p1", 0, 100, "", "", 0, 0, 0, 0, 0⟩]
     (by simp [getReports, List.mergeSort])⟩

end PuppetSummary
